import Mathlib

/-!
Verification of the CRD schema "up-to-dateness" checker and the
file-writing script of the go-playground repository.

The CRD checker (`compareSchemaProperties`, `checkCRD`) is embedded over
an association-list model of Go maps: a `SchemaPropertySet` is a list of
key/descriptor pairs, the list order standing for the map's iteration
order.  The diagnostic lines printed by the Go code are modelled as a
list of `CheckEvent`s (one `ok`/`fail` event per property checked), and
the per-document conclusion as a `Verdict`.
-/

/-- A JSON schema property descriptor: its `type` tag, its optional
`format` qualifier (empty string when absent) and its nested
`properties` map, modelled as an association list in iteration order. -/
inductive JSONSchemaProps where
  | mk : String → String → List (String × JSONSchemaProps) → JSONSchemaProps

def JSONSchemaProps.type : JSONSchemaProps → String
  | .mk t _ _ => t

def JSONSchemaProps.format : JSONSchemaProps → String
  | .mk _ f _ => f

def JSONSchemaProps.properties : JSONSchemaProps → List (String × JSONSchemaProps)
  | .mk _ _ ps => ps

/-- A mapping from property name to descriptor, in iteration order. -/
abbrev SchemaPropertySet := List (String × JSONSchemaProps)

/-- Go map indexing `m[key]` on the association-list model: the first
binding of `key`, if any. -/
def lookupKey (m : SchemaPropertySet) (key : String) : Option JSONSchemaProps :=
  match m with
  | [] => none
  | (k, v) :: rest => if k = key then some v else lookupKey rest key

/-- `key` is present in the mapping. -/
def hasKey (m : SchemaPropertySet) (key : String) : Bool :=
  (lookupKey m key).isSome

/-- One diagnostic line of `compareSchemaProperties`: the
"OK: Property ... found" line or the "FAIL: Expected property ... not
found" line, tagged with the property name. -/
inductive CheckEvent where
  | ok (key : String)
  | fail (key : String)
deriving DecidableEq, Repr

/-- `compareSchemaProperties actual expected` checks that every property
key of `expected` exists in `actual`, returning the Go function's boolean
result together with the diagnostic lines it prints, one per expected key
in iteration order. -/
def compareSchemaProperties (actual expected : SchemaPropertySet) :
    Bool × List CheckEvent :=
  match expected with
  | [] => (true, [])
  | (key, _) :: rest =>
    let r := compareSchemaProperties actual rest
    match lookupKey actual key with
    | none => (false, CheckEvent.fail key :: r.2)
    | some _ => (r.1, CheckEvent.ok key :: r.2)

/-- The keys of the FAIL lines of a diagnostic trace: the missing-key
list the checker reports. -/
def failedKeys (events : List CheckEvent) : List String :=
  events.filterMap fun e =>
    match e with
    | CheckEvent.fail k => some k
    | CheckEvent.ok _ => none

/-- `CustomResourceValidation`: a schema object holding an optional
`openAPIV3Schema` (a nil pointer in Go is `none`). -/
structure CustomResourceValidation where
  openAPIV3Schema : Option JSONSchemaProps

/-- One entry of a CRD's version list: its name and its optional schema
object (a nil `Schema` pointer is `none`). -/
structure CRDVersion where
  name : String
  schema : Option CustomResourceValidation

/-- The `spec` of a CustomResourceDefinition: its version list. -/
structure CRDSpec where
  versions : List CRDVersion

/-- A parsed CustomResourceDefinition document. -/
structure CustomResourceDefinition where
  spec : CRDSpec

/-- The per-document conclusion the checker logs. -/
inductive Verdict where
  | UpToDate
  | OutOfDate (missingSpec missingStatus : List String)
  | SectionMissing (sectionName : String)
  | VersionNotFound
deriving DecidableEq, Repr

/-- The fixed expected `spec` schema properties the controller requires. -/
def expectedSpecProperties : SchemaPropertySet :=
  [("foo", JSONSchemaProps.mk "string" "" []),
   ("bar", JSONSchemaProps.mk "integer" "int64" [])]

/-- The fixed expected `status` schema properties the controller requires. -/
def expectedStatusProperties : SchemaPropertySet :=
  [("message", JSONSchemaProps.mk "string" "" []),
   ("ready", JSONSchemaProps.mk "boolean" "" [])]

/-- The v1-schema search loop of `checkCRD`: walk the version list, and at
the first entry named "v1" take its schema object and stop.  The result is
`none` both when no entry is named "v1" and when the first such entry's
schema pointer is nil, exactly as the Go code's single nil test merges
the two cases. -/
def findV1Schema : List CRDVersion → Option CustomResourceValidation
  | [] => none
  | v :: rest => if v.name = "v1" then v.schema else findV1Schema rest

/-- `checkCRD` run on an already-parsed document: the verdict it logs,
paired with the property-check diagnostic lines it prints (in order). -/
def checkCRD (crd : CustomResourceDefinition) : Verdict × List CheckEvent :=
  match findV1Schema crd.spec.versions with
  | none => (Verdict.VersionNotFound, [])
  | some v1schema =>
    match v1schema.openAPIV3Schema with
    | none => (Verdict.VersionNotFound, [])
    | some actualCRDSchema =>
      match lookupKey actualCRDSchema.properties "spec" with
      | none => (Verdict.SectionMissing "spec", [])
      | some specSchema =>
        let specRun := compareSchemaProperties specSchema.properties expectedSpecProperties
        match lookupKey actualCRDSchema.properties "status" with
        | none => (Verdict.SectionMissing "status", specRun.2)
        | some statusSchema =>
          let statusRun :=
            compareSchemaProperties statusSchema.properties expectedStatusProperties
          if specRun.1 && statusRun.1 then
            (Verdict.UpToDate, specRun.2 ++ statusRun.2)
          else
            (Verdict.OutOfDate (failedKeys specRun.2) (failedKeys statusRun.2),
             specRun.2 ++ statusRun.2)

/-- The parsed form of the `mockOutOfDateCRDFromCluster` YAML constant:
spec properties `{foo: string}`, status properties `{message: string}`
under version "v1". -/
def mockOutOfDateCRDFromCluster : CustomResourceDefinition :=
  CustomResourceDefinition.mk (CRDSpec.mk
    [CRDVersion.mk "v1" (some (CustomResourceValidation.mk (some
      (JSONSchemaProps.mk "object" ""
        [("spec", JSONSchemaProps.mk "object" ""
            [("foo", JSONSchemaProps.mk "string" "" [])]),
         ("status", JSONSchemaProps.mk "object" ""
            [("message", JSONSchemaProps.mk "string" "" [])])]))))])

/-- The parsed form of the `mockUpToDateCRDFromCluster` YAML constant:
spec properties `{foo: string, bar: integer/int64}`, status properties
`{message: string, ready: boolean}` under version "v1". -/
def mockUpToDateCRDFromCluster : CustomResourceDefinition :=
  CustomResourceDefinition.mk (CRDSpec.mk
    [CRDVersion.mk "v1" (some (CustomResourceValidation.mk (some
      (JSONSchemaProps.mk "object" ""
        [("spec", JSONSchemaProps.mk "object" ""
            [("foo", JSONSchemaProps.mk "string" "" []),
             ("bar", JSONSchemaProps.mk "integer" "int64" [])]),
         ("status", JSONSchemaProps.mk "object" ""
            [("message", JSONSchemaProps.mk "string" "" []),
             ("ready", JSONSchemaProps.mk "boolean" "" [])])]))))])

/-! ### Helper lemmas about `compareSchemaProperties` -/

theorem hasKey_eq_true_iff (m : SchemaPropertySet) (k : String) :
    hasKey m k = true ↔ k ∈ m.map Prod.fst := by
  induction m with
  | nil => simp [hasKey, lookupKey]
  | cons p rest ih =>
    obtain ⟨k', v⟩ := p
    simp only [hasKey, lookupKey, List.map_cons, List.mem_cons]
    by_cases h : k' = k
    · simp [h]
    · simp only [if_neg h]
      rw [show ((lookupKey rest k).isSome = true ↔ k ∈ rest.map Prod.fst) from ih]
      have : ¬ k = k' := fun hk => h hk.symm
      simp [this]

theorem compareSchemaProperties_fst (A B : SchemaPropertySet) :
    (compareSchemaProperties A B).1 = B.all fun p => hasKey A p.1 := by
  induction B with
  | nil => rfl
  | cons p rest ih =>
    obtain ⟨k, v⟩ := p
    simp only [compareSchemaProperties, List.all_cons]
    cases h : lookupKey A k with
    | none => simp [hasKey, h]
    | some w => simp [hasKey, h, ih]

theorem compareSchemaProperties_snd (A B : SchemaPropertySet) :
    (compareSchemaProperties A B).2 =
      B.map fun p => if hasKey A p.1 then CheckEvent.ok p.1 else CheckEvent.fail p.1 := by
  induction B with
  | nil => rfl
  | cons p rest ih =>
    obtain ⟨k, v⟩ := p
    simp only [compareSchemaProperties, List.map_cons]
    cases h : lookupKey A k with
    | none => simp [hasKey, h, ih]
    | some w => simp [hasKey, h, ih]

theorem failedKeys_compare (A B : SchemaPropertySet) :
    failedKeys (compareSchemaProperties A B).2 =
      (B.filter fun p => !hasKey A p.1).map Prod.fst := by
  rw [compareSchemaProperties_snd]
  induction B with
  | nil => rfl
  | cons p rest ih =>
    obtain ⟨k, v⟩ := p
    cases hk : hasKey A k with
    | true =>
      simp only [failedKeys, List.map_cons, List.filterMap_cons, List.filter_cons] at ih ⊢
      simp only [hk, if_pos, Bool.not_true, if_neg, reduceIte]
      exact ih
    | false =>
      simp only [failedKeys, List.map_cons, List.filterMap_cons, List.filter_cons] at ih ⊢
      simp only [hk, Bool.not_false, reduceIte, List.map_cons]
      rw [ih]
      rfl

theorem compare_fst_true_iff_failedKeys_nil (A B : SchemaPropertySet) :
    (compareSchemaProperties A B).1 = true ↔
      failedKeys (compareSchemaProperties A B).2 = [] := by
  rw [compareSchemaProperties_fst, failedKeys_compare]
  simp only [List.all_eq_true, List.map_eq_nil_iff, List.filter_eq_nil_iff]
  constructor
  · intro h p hp
    simp [h p hp]
  · intro h p hp
    have := h p hp
    simpa using this

/-! ### Claim theorems: the property comparator -/

/-- C1: `checkProperties(A, B)` returns true iff every key of `B` is a key
of `A`; the result depends only on key membership of `A` (never on the
descriptor values), so a key present with a mismatched type/format still
counts as found. -/
theorem checkProperties_subset_iff (A B : SchemaPropertySet) :
    ((compareSchemaProperties A B).1 = true ↔
      ∀ k, hasKey B k = true → hasKey A k = true) ∧
    (∀ A' : SchemaPropertySet, (∀ k, hasKey A' k = hasKey A k) →
      (compareSchemaProperties A' B).1 = (compareSchemaProperties A B).1) := by
  constructor
  · rw [compareSchemaProperties_fst]
    simp only [List.all_eq_true]
    constructor
    · intro h k hk
      rw [hasKey_eq_true_iff] at hk
      obtain ⟨p, hp, hfst⟩ := List.mem_map.mp hk
      exact hfst ▸ h p hp
    · intro h p hp
      exact h p.1 ((hasKey_eq_true_iff B p.1).mpr (List.mem_map.mpr ⟨p, hp, rfl⟩))
  · intro A' hA
    rw [compareSchemaProperties_fst, compareSchemaProperties_fst]
    exact congrArg B.all (funext fun p => hA p.1)

/-- C7: for non-empty expected `B`, `checkProperties({}, B)` is false and
the missing list is exactly the key list of `B` in `B`'s iteration order. -/
theorem checkProperties_empty_actual (B : SchemaPropertySet) (h : B ≠ []) :
    (compareSchemaProperties [] B).1 = false ∧
    failedKeys (compareSchemaProperties [] B).2 = B.map Prod.fst := by
  have hkey : ∀ k, hasKey ([] : SchemaPropertySet) k = false := fun k => rfl
  constructor
  · rw [compareSchemaProperties_fst]
    obtain ⟨p, rest, rfl⟩ := List.exists_cons_of_ne_nil h
    simp [hkey]
  · rw [failedKeys_compare]
    have : (B.filter fun p => !hasKey ([] : SchemaPropertySet) p.1) = B := by
      apply List.filter_eq_self.mpr
      intro p _
      simp [hkey]
    rw [this]

theorem checkProperties_empty_actual_witness :
    (compareSchemaProperties [] expectedSpecProperties).1 = false ∧
    failedKeys (compareSchemaProperties [] expectedSpecProperties).2 = ["foo", "bar"] :=
  checkProperties_empty_actual expectedSpecProperties (by simp [expectedSpecProperties])

/-- C8: the boolean result of `checkProperties` depends only on the key
sets of the two inputs, not on the order in which either map is
iterated: two runs over inputs with the same key membership return equal
booleans. -/
theorem checkProperties_order_independent (A A' B B' : SchemaPropertySet)
    (hA : ∀ k, hasKey A' k = hasKey A k) (hB : ∀ k, hasKey B' k = hasKey B k) :
    (compareSchemaProperties A' B').1 = (compareSchemaProperties A B).1 := by
  have h1 := checkProperties_subset_iff A B
  have h2 := checkProperties_subset_iff A' B'
  cases hres : (compareSchemaProperties A B).1 with
  | true =>
    apply h2.1.mpr
    intro k hk
    rw [hA]
    exact (h1.1.mp hres) k (by rw [← hB]; exact hk)
  | false =>
    cases hres' : (compareSchemaProperties A' B').1 with
    | true =>
      exfalso
      have : (compareSchemaProperties A B).1 = true := by
        apply h1.1.mpr
        intro k hk
        rw [← hA]
        exact (h2.1.mp hres') k (by rw [hB]; exact hk)
      rw [hres] at this
      exact Bool.false_ne_true this
    | false => rfl

theorem checkProperties_order_independent_witness :
    (compareSchemaProperties
        [("x", JSONSchemaProps.mk "string" "" [])]
        [("a", JSONSchemaProps.mk "string" "" []),
         ("b", JSONSchemaProps.mk "integer" "" [])]).1 =
    (compareSchemaProperties
        [("x", JSONSchemaProps.mk "boolean" "" [])]
        [("b", JSONSchemaProps.mk "boolean" "" []),
         ("a", JSONSchemaProps.mk "string" "" [])]).1 :=
  checkProperties_order_independent
    [("x", JSONSchemaProps.mk "boolean" "" [])]
    [("x", JSONSchemaProps.mk "string" "" [])]
    [("b", JSONSchemaProps.mk "boolean" "" []),
     ("a", JSONSchemaProps.mk "string" "" [])]
    [("a", JSONSchemaProps.mk "string" "" []),
     ("b", JSONSchemaProps.mk "integer" "" [])]
    (fun k => by
      by_cases h : "x" = k <;> simp [hasKey, lookupKey, h])
    (fun k => by
      by_cases h1 : "a" = k <;> by_cases h2 : "b" = k <;>
        simp [hasKey, lookupKey, h1, h2])

/-! ### Helper lemmas about the v1-schema search -/

theorem findV1Schema_eq_none (vs : List CRDVersion) (h : ∀ u ∈ vs, u.name ≠ "v1") :
    findV1Schema vs = none := by
  induction vs with
  | nil => rfl
  | cons v rest ih =>
    simp only [findV1Schema]
    rw [if_neg (h v (List.mem_cons_self v rest))]
    exact ih fun u hu => h u (List.mem_cons_of_mem v hu)

theorem findV1Schema_append (vs1 vs2 : List CRDVersion) (v : CRDVersion)
    (h1 : ∀ u ∈ vs1, u.name ≠ "v1") (h2 : v.name = "v1") :
    findV1Schema (vs1 ++ v :: vs2) = v.schema := by
  induction vs1 with
  | nil => simp [findV1Schema, h2]
  | cons u rest ih =>
    simp only [List.cons_append, findV1Schema]
    rw [if_neg (h1 u (List.mem_cons_self u rest))]
    exact ih fun w hw => h1 w (List.mem_cons_of_mem u hw)

/-! ### Claim theorems: the CRD evaluator -/

/-- C2: when the located v1 schema has both a `spec` and a `status`
section, the verdict is `UpToDate` iff both section checks pass;
otherwise it is `OutOfDate` carrying both missing-key lists, with an
empty list for a section that fully passed. -/
theorem checkCRD_both_sections (crd : CustomResourceDefinition)
    (v1s : CustomResourceValidation) (sch sp st : JSONSchemaProps)
    (hv : findV1Schema crd.spec.versions = some v1s)
    (ho : v1s.openAPIV3Schema = some sch)
    (hsp : lookupKey sch.properties "spec" = some sp)
    (hst : lookupKey sch.properties "status" = some st) :
    ((checkCRD crd).1 = Verdict.UpToDate ↔
      ((compareSchemaProperties sp.properties expectedSpecProperties).1 = true ∧
       (compareSchemaProperties st.properties expectedStatusProperties).1 = true)) ∧
    (¬ ((compareSchemaProperties sp.properties expectedSpecProperties).1 = true ∧
        (compareSchemaProperties st.properties expectedStatusProperties).1 = true) →
      (checkCRD crd).1 = Verdict.OutOfDate
        (failedKeys (compareSchemaProperties sp.properties expectedSpecProperties).2)
        (failedKeys (compareSchemaProperties st.properties expectedStatusProperties).2)) ∧
    ((compareSchemaProperties sp.properties expectedSpecProperties).1 = true →
      failedKeys (compareSchemaProperties sp.properties expectedSpecProperties).2 = []) ∧
    ((compareSchemaProperties st.properties expectedStatusProperties).1 = true →
      failedKeys (compareSchemaProperties st.properties expectedStatusProperties).2 = []) := by
  have hck : checkCRD crd =
      (if (compareSchemaProperties sp.properties expectedSpecProperties).1 &&
          (compareSchemaProperties st.properties expectedStatusProperties).1 then
        (Verdict.UpToDate,
         (compareSchemaProperties sp.properties expectedSpecProperties).2 ++
           (compareSchemaProperties st.properties expectedStatusProperties).2)
      else
        (Verdict.OutOfDate
           (failedKeys (compareSchemaProperties sp.properties expectedSpecProperties).2)
           (failedKeys (compareSchemaProperties st.properties expectedStatusProperties).2),
         (compareSchemaProperties sp.properties expectedSpecProperties).2 ++
           (compareSchemaProperties st.properties expectedStatusProperties).2)) := by
    simp only [checkCRD, hv, ho, hsp, hst]
  refine ⟨?_, ?_, ?_, ?_⟩
  · cases ha : (compareSchemaProperties sp.properties expectedSpecProperties).1 <;>
      cases hb : (compareSchemaProperties st.properties expectedStatusProperties).1 <;>
      simp [hck, ha, hb]
  · intro hnot
    cases ha : (compareSchemaProperties sp.properties expectedSpecProperties).1 <;>
      cases hb : (compareSchemaProperties st.properties expectedStatusProperties).1
    · simp [hck, ha, hb]
    · simp [hck, ha, hb]
    · simp [hck, ha, hb]
    · exact absurd ⟨ha, hb⟩ hnot
  · exact fun h => (compare_fst_true_iff_failedKeys_nil _ _).mp h
  · exact fun h => (compare_fst_true_iff_failedKeys_nil _ _).mp h

theorem checkCRD_both_sections_witness :
    (checkCRD mockUpToDateCRDFromCluster).1 = Verdict.UpToDate :=
  (checkCRD_both_sections mockUpToDateCRDFromCluster _ _ _ _ rfl rfl rfl rfl).1.mpr
    ⟨rfl, rfl⟩

/-- C3: when no version entry is named "v1", or the located "v1" entry
has no schema object (a nil `Schema` pointer or a nil `OpenAPIV3Schema`
pointer), the evaluator short-circuits with `VersionNotFound` and an
empty diagnostic trace: the two cases are treated identically and no
spec or status property check runs. -/
theorem checkCRD_versionNotFound (crd : CustomResourceDefinition)
    (h : (∀ u ∈ crd.spec.versions, u.name ≠ "v1") ∨
      ∃ vs1 v vs2, crd.spec.versions = vs1 ++ v :: vs2 ∧
        (∀ u ∈ vs1, u.name ≠ "v1") ∧ v.name = "v1" ∧
        (v.schema = none ∨
          ∃ cv, v.schema = some cv ∧ cv.openAPIV3Schema = none)) :
    checkCRD crd = (Verdict.VersionNotFound, []) := by
  rcases h with h | ⟨vs1, v, vs2, hsplit, h1, h2, hschema⟩
  · have hfind : findV1Schema crd.spec.versions = none := findV1Schema_eq_none _ h
    simp [checkCRD, hfind]
  · have hfind : findV1Schema crd.spec.versions = v.schema := by
      rw [hsplit]
      exact findV1Schema_append vs1 vs2 v h1 h2
    rcases hschema with hnone | ⟨cv, hcv, hocv⟩
    · simp [checkCRD, hfind, hnone]
    · simp [checkCRD, hfind, hcv, hocv]

theorem checkCRD_versionNotFound_witness :
    checkCRD (CustomResourceDefinition.mk (CRDSpec.mk [CRDVersion.mk "v2" none])) =
      (Verdict.VersionNotFound, []) :=
  checkCRD_versionNotFound _ (Or.inl (by
    intro u hu
    simp only [List.mem_singleton] at hu
    subst hu
    decide))

/-- C4: when the v1 schema's top-level properties lack the "spec" key,
the verdict is `SectionMissing "spec"` and the diagnostic trace is
empty: the status-section check is skipped entirely and no property is
examined on this path. -/
theorem checkCRD_missingSpec (crd : CustomResourceDefinition)
    (v1s : CustomResourceValidation) (sch : JSONSchemaProps)
    (hv : findV1Schema crd.spec.versions = some v1s)
    (ho : v1s.openAPIV3Schema = some sch)
    (hsp : lookupKey sch.properties "spec" = none) :
    checkCRD crd = (Verdict.SectionMissing "spec", []) := by
  simp [checkCRD, hv, ho, hsp]

theorem checkCRD_missingSpec_witness :
    checkCRD (CustomResourceDefinition.mk (CRDSpec.mk
      [CRDVersion.mk "v1" (some (CustomResourceValidation.mk (some
        (JSONSchemaProps.mk "object" ""
          [("status", JSONSchemaProps.mk "object" "" [])]))))])) =
      (Verdict.SectionMissing "spec", []) :=
  checkCRD_missingSpec _ _ _ rfl rfl rfl

/-- C5: when the v1 schema has a "spec" section but no "status" key, the
verdict is `SectionMissing "status"` and the diagnostic trace is exactly
the spec-section check's lines: the spec check has already run and been
reported before the short-circuit. -/
theorem checkCRD_missingStatus (crd : CustomResourceDefinition)
    (v1s : CustomResourceValidation) (sch sp : JSONSchemaProps)
    (hv : findV1Schema crd.spec.versions = some v1s)
    (ho : v1s.openAPIV3Schema = some sch)
    (hsp : lookupKey sch.properties "spec" = some sp)
    (hst : lookupKey sch.properties "status" = none) :
    checkCRD crd = (Verdict.SectionMissing "status",
      (compareSchemaProperties sp.properties expectedSpecProperties).2) := by
  simp [checkCRD, hv, ho, hsp, hst]

theorem checkCRD_missingStatus_witness :
    checkCRD (CustomResourceDefinition.mk (CRDSpec.mk
      [CRDVersion.mk "v1" (some (CustomResourceValidation.mk (some
        (JSONSchemaProps.mk "object" ""
          [("spec", JSONSchemaProps.mk "object" ""
              [("foo", JSONSchemaProps.mk "string" "" [])])]))))])) =
      (Verdict.SectionMissing "status",
       [CheckEvent.ok "foo", CheckEvent.fail "bar"]) :=
  checkCRD_missingStatus
    (CustomResourceDefinition.mk (CRDSpec.mk
      [CRDVersion.mk "v1" (some (CustomResourceValidation.mk (some
        (JSONSchemaProps.mk "object" ""
          [("spec", JSONSchemaProps.mk "object" ""
              [("foo", JSONSchemaProps.mk "string" "" [])])]))))]))
    _ _ _ rfl rfl rfl rfl

/-- C6: on the concrete out-of-date document (v1 spec properties
`{foo: string}`, status properties `{message: string}`) the evaluator
concludes `OutOfDate` with missingSpec `["bar"]` and missingStatus
`["ready"]`. -/
theorem checkCRD_outOfDate_mock :
    checkCRD mockOutOfDateCRDFromCluster =
      (Verdict.OutOfDate ["bar"] ["ready"],
       [CheckEvent.ok "foo", CheckEvent.fail "bar",
        CheckEvent.ok "message", CheckEvent.fail "ready"]) := rfl

/-- C10: when the version list holds several entries named "v1", the
evaluator uses the schema of the first one in list order and ignores all
later entries: the search result is the first match's schema, and the
whole evaluation equals the evaluation of a document holding that first
entry alone. -/
theorem checkCRD_firstV1Wins (vs1 vs2 : List CRDVersion) (v : CRDVersion)
    (h1 : ∀ u ∈ vs1, u.name ≠ "v1") (h2 : v.name = "v1") :
    findV1Schema (vs1 ++ v :: vs2) = v.schema ∧
    checkCRD (CustomResourceDefinition.mk (CRDSpec.mk (vs1 ++ v :: vs2))) =
      checkCRD (CustomResourceDefinition.mk (CRDSpec.mk [v])) := by
  have hfind := findV1Schema_append vs1 vs2 v h1 h2
  refine ⟨hfind, ?_⟩
  have hone : findV1Schema [v] = v.schema := by simp [findV1Schema, h2]
  simp only [checkCRD]
  rw [hfind, hone]

theorem checkCRD_firstV1Wins_witness :
    findV1Schema
        ([CRDVersion.mk "v0" none] ++ CRDVersion.mk "v1" none ::
          [CRDVersion.mk "v1" (some (CustomResourceValidation.mk (some
            (JSONSchemaProps.mk "object" "" []))))]) = none ∧
    checkCRD (CustomResourceDefinition.mk (CRDSpec.mk
        ([CRDVersion.mk "v0" none] ++ CRDVersion.mk "v1" none ::
          [CRDVersion.mk "v1" (some (CustomResourceValidation.mk (some
            (JSONSchemaProps.mk "object" "" []))))]))) =
      checkCRD (CustomResourceDefinition.mk (CRDSpec.mk [CRDVersion.mk "v1" none])) :=
  checkCRD_firstV1Wins [CRDVersion.mk "v0" none]
    [CRDVersion.mk "v1" (some (CustomResourceValidation.mk (some
      (JSONSchemaProps.mk "object" "" []))))]
    (CRDVersion.mk "v1" none)
    (by
      intro u hu
      simp only [List.mem_singleton] at hu
      subst hu
      decide)
    rfl

/-! ### The file-writing program (src/main.go) -/

/-- The first line `main` prints. -/
def output1 : String := "Hello from Go Playground!"

/-- The second line `main` prints. -/
def output2 : String := "This is a simple Go program that runs to completion."

/-- Outcome of the three file-system calls `main` makes, abstracting the
operating system: whether `os.MkdirAll` and each of the two `os.Create`
calls succeed. -/
structure FSEnv where
  mkdirOk : Bool
  createOutputOk : Bool
  createErrorOk : Bool

/-- Observable behaviour of one run of the file-writing program: the
lines written to stdout and stderr, each created file with its name and
final contents (`none` when never created), and the exit code. -/
structure RunResult where
  stdoutLines : List String
  stderrLines : List String
  outputFile : Option (String × List String)
  errorFile : Option (String × List String)
  exitCode : Nat

/-- The file-writing `main`, run against an abstract file system and the
timestamp string `time.Now().Format("20060102-150405")` produced. -/
def mainRun (env : FSEnv) (timestamp : String) : RunResult :=
  if env.mkdirOk = false then
    RunResult.mk [] ["Error creating results directory"] none none 1
  else if env.createOutputOk = false then
    RunResult.mk [] ["Error creating output file"] none none 1
  else if env.createErrorOk = false then
    RunResult.mk [] ["Error creating error file"]
      (some ("results/" ++ ("output-" ++ timestamp ++ ".txt"), [])) none 1
  else
    RunResult.mk [output1, output2] []
      (some ("results/" ++ ("output-" ++ timestamp ++ ".txt"), [output1, output2]))
      (some ("results/" ++ ("error-" ++ timestamp ++ ".txt"), [])) 0

/-- C9: on success the program writes the two fixed lines to stdout and
the same two lines to the timestamped output file under results/,
creates a sibling timestamped error file that stays empty, and exits 0;
when directory creation or either file creation fails it writes a
message to stderr and exits 1. -/
theorem mainRun_spec (env : FSEnv) (ts : String) :
    (env.mkdirOk = true ∧ env.createOutputOk = true ∧ env.createErrorOk = true →
      mainRun env ts = RunResult.mk [output1, output2] []
        (some ("results/" ++ ("output-" ++ ts ++ ".txt"), [output1, output2]))
        (some ("results/" ++ ("error-" ++ ts ++ ".txt"), [])) 0) ∧
    (¬ (env.mkdirOk = true ∧ env.createOutputOk = true ∧ env.createErrorOk = true) →
      (mainRun env ts).exitCode = 1 ∧ (mainRun env ts).stderrLines ≠ []) := by
  obtain ⟨m, o, e⟩ := env
  cases m <;> cases o <;> cases e <;> simp [mainRun]
